import Mathlib

/-!
Verification development for the container-ops metrics engine.

Shallow embedding of the metrics-sampling-and-alerting subsystem:
the cgroup resource probes, per-process sampler, threshold evaluator
and webhook dispatcher from lib/cron.ts, lib/webhook.ts and
lib/admin-settings.ts.  JavaScript numbers are modelled as Int where the
source holds integers (timestamps, bytes, jiffies) and as Rat where the
source computes ratios and percentages.  Asynchronous file reads are
modelled as optional values supplied by the environment (none means the
read failed / the file is absent), matching the catch-and-fallback
structure of the source.
-/

namespace ContainerOps

/-! JavaScript primitives used by the source -/

/-- Accumulate a list of decimal digit characters into a natural number. -/
def digitsToNat (cs : List Char) : Nat :=
  cs.foldl (fun acc c => acc * 10 + (c.toNat - '0'.toNat)) 0

/-- String.prototype.trim: drop leading and trailing whitespace.
(Defined by structural recursion over the character list so that proofs
can evaluate it.) -/
def jsTrim (s : String) : String :=
  ⟨((s.data.dropWhile (fun c => c.isWhitespace)).reverse.dropWhile
    (fun c => c.isWhitespace)).reverse⟩

/-- Split a character list at every occurrence of the separator. -/
def splitOnCharAux (sep : Char) : List Char → List (List Char)
  | [] => [[]]
  | c :: cs =>
    match splitOnCharAux sep cs with
    | [] => [[]]
    | h :: t => if c = sep then [] :: h :: t else (c :: h) :: t

/-- String.prototype.split with a one-character separator. -/
def splitOnChar (sep : Char) (s : String) : List String :=
  (splitOnCharAux sep s.data).map (fun cs => ⟨cs⟩)

/-- String.prototype.toLowerCase (over the basic latin range). -/
def jsToLower (s : String) : String :=
  ⟨s.data.map Char.toLower⟩

/-- Model of JavaScript parseInt(s, 10): skip leading whitespace, read an
optional sign and then decimal digits, ignoring any trailing characters;
returns none where parseInt returns NaN (no digits found). -/
def jsParseInt (s : String) : Option Int :=
  let cs := s.data.dropWhile (fun c => c.isWhitespace)
  let signAndRest : Int × List Char :=
    match cs with
    | '-' :: rest => (-1, rest)
    | '+' :: rest => (1, rest)
    | _ => (1, cs)
  let digits := signAndRest.2.takeWhile (fun c => c.isDigit)
  if digits.isEmpty then none
  else some (signAndRest.1 * (digitsToNat digits : Int))

/-- JavaScript s1 || s2 on strings: the empty string is falsy. -/
def jsOrStr (s : Option String) (d : String) : String :=
  match s with
  | some s => if s = "" then d else s
  | none => d

/-- readNumber from lib/cron.ts: read a file, parseInt its trimmed
contents, return 0 on read failure or NaN. -/
def readNumber (content : Option String) : Int :=
  match content with
  | none => 0
  | some v =>
    match jsParseInt (jsTrim v) with
    | none => 0
    | some n => n

/-- Model of Number.prototype.toFixed(2) on a rational: round to the
nearest hundredth and print with exactly two fractional digits. -/
def ratToFixed2 (q : ℚ) : String :=
  let n : ℤ := round (q * 100)
  let sign := if n < 0 then "-" else ""
  let m := n.natAbs
  let fp := m % 100
  sign ++ toString (m / 100) ++ "." ++ (if fp < 10 then "0" ++ toString fp else toString fp)

/-! Webhook dispatch (lib/webhook.ts) -/

/-- WebhookConfig from lib/admin-settings.ts. -/
structure WebhookConfig where
  id : String
  name : String
  url : String
  method : String
  headers : List (String × String)
  body : String
  enabled : Bool
deriving DecidableEq

/-- Outcome of the fetch call inside executeWebhook: either an HTTP
response arrived (any status code), or the request failed at transport
level (timeout, DNS, connection refused) and fetch rejected. -/
inductive FetchOutcome
  | response (status : Nat)
  | failure (message : String)
deriving DecidableEq

/-- Response.ok in the fetch API: status in the range 200..299. -/
def responseOk (status : Nat) : Bool :=
  200 ≤ status && status < 300

/-- WebhookHistoryEntry from lib/admin-settings.ts. -/
structure WebhookHistoryEntry where
  id : String
  timestamp : Int
  webhookName : String
  webhookUrl : String
  method : String
  statusCode : Option Nat
  success : Bool
  error : Option String
  reason : String
  responseTime : Int
deriving DecidableEq

/-- The history-recording core of executeWebhook from lib/webhook.ts:
given the outcome of the fetch, build the WebhookHistoryEntry that is
appended to the history sink.  On a received response the entry stores
the status code and success := response.ok; on a transport failure it
stores no status code, success := false and the error message. -/
def executeWebhook (config : WebhookConfig) (reason : String) (outcome : FetchOutcome)
    (now : Int) (responseTime : Int) (entryId : String) : WebhookHistoryEntry :=
  match outcome with
  | .response status =>
    { id := entryId
      timestamp := now
      webhookName := config.name
      webhookUrl := config.url
      method := config.method
      statusCode := some status
      success := responseOk status
      error := none
      reason := reason
      responseTime := responseTime }
  | .failure msg =>
    { id := entryId
      timestamp := now
      webhookName := config.name
      webhookUrl := config.url
      method := config.method
      statusCode := none
      success := false
      error := some msg
      reason := reason
      responseTime := responseTime }

/-! Cgroup probes (lib/cron.ts, SystemProbe) -/

/-- Cgroup layout version, as detected by detectCgroupVersion. -/
inductive CgVersion
  | v1
  | v2
deriving DecidableEq

/-- The control files and host values read by the probes.  A none means
the file is absent or unreadable (the promise rejected). -/
structure CgroupFS where
  cpuMaxV2 : Option String
  cfsQuotaV1 : Option String
  cfsPeriodV1 : Option String
  memMaxV2 : Option String
  memCurrentV2 : Option String
  memLimitV1 : Option String
  memUsageV1 : Option String
  memTotalKb : Option Int
  numCpus : Nat
deriving DecidableEq

/-- Number.MAX_SAFE_INTEGER. -/
def maxSafeInteger : Int := 2 ^ 53 - 1

/-- getCpuLimit from lib/cron.ts: for v2 parse the single quota/period
file (absent reads become the empty string, which is falsy); for v1 read
separate quota and period files with catch defaults 0 and 100000.  In
both versions the ratio quota/period is returned only when both parse to
positive numbers; otherwise the host logical CPU count. -/
def getCpuLimit (version : CgVersion) (fs : CgroupFS) : ℚ :=
  match version with
  | .v2 =>
    let cpuMax := fs.cpuMaxV2.getD ""
    if cpuMax ≠ "" then
      let parts := splitOnChar ' ' (jsTrim cpuMax)
      match jsParseInt (parts.getD 0 ""), jsParseInt (parts.getD 1 "") with
      | some quota, some period =>
        if 0 < quota ∧ 0 < period then (quota : ℚ) / (period : ℚ) else (fs.numCpus : ℚ)
      | _, _ => (fs.numCpus : ℚ)
    else (fs.numCpus : ℚ)
  | .v1 =>
    let quotaStr := fs.cfsQuotaV1.getD "0"
    let periodStr := fs.cfsPeriodV1.getD "100000"
    match jsParseInt (jsTrim quotaStr), jsParseInt (jsTrim periodStr) with
    | some quota, some period =>
      if 0 < quota ∧ 0 < period then (quota : ℚ) / (period : ℚ) else (fs.numCpus : ℚ)
    | _, _ => (fs.numCpus : ℚ)

/-- Memory limit and usage as read in collectMetrics.  For v2, an
unlimited or unreadable memory.max (value non-positive or equal to
MAX_SAFE_INTEGER after readNumber) falls back to MemTotal from
/proc/meminfo times 1024 (0 when the MemTotal line does not match).
For v1 the limit and usage files are read directly with no fallback. -/
structure MemReading where
  memLimit : Int
  memUsage : Int
deriving DecidableEq

/-- The memory branch of collectMetrics (lib/cron.ts). -/
def readMemory (version : CgVersion) (fs : CgroupFS) : MemReading :=
  match version with
  | .v2 =>
    let memLimit0 := readNumber fs.memMaxV2
    let memUsage := readNumber fs.memCurrentV2
    let memLimit :=
      if memLimit0 ≤ 0 ∨ memLimit0 = maxSafeInteger then
        match fs.memTotalKb with
        | some kb => kb * 1024
        | none => 0
      else memLimit0
    { memLimit := memLimit, memUsage := memUsage }
  | .v1 =>
    { memLimit := readNumber fs.memLimitV1
      memUsage := readNumber fs.memUsageV1 }

/-- The memory percentage of collectMetrics: raw ratio times 100 when
the limit is positive, else 0.  Not clamped in the source. -/
def memPercentOf (usage limit : Int) : ℚ :=
  if 0 < limit then ((usage : ℚ) / (limit : ℚ)) * 100 else 0

/-- The storage percentage of collectMetrics: raw ratio times 100 when
the total is positive, else 0.  Not clamped in the source. -/
def storagePercentOf (used total : Int) : ℚ :=
  if 0 < total then ((used : ℚ) / (total : ℚ)) * 100 else 0

/-- Container CPU percentage from collectMetrics: zero on the first
cycle (both module-level globals are still 0, hence falsy), otherwise
the usage delta over the wall-clock delta scaled by the CPU limit; the
result is clamped into the range 0..100 with min/max. -/
def containerCpuPercent (lastCpuUsageNs lastTsContainer : Int) (usageNs nowMs : Int)
    (cpuLimit : ℚ) : ℚ :=
  let raw : ℚ :=
    if lastCpuUsageNs ≠ 0 ∧ lastTsContainer ≠ 0 then
      let deltaUsage : ℚ := ((usageNs - lastCpuUsageNs : Int) : ℚ)
      let deltaTimeNs : ℚ := ((nowMs - lastTsContainer : Int) : ℚ) * 1000000
      deltaUsage / deltaTimeNs * 100 / max cpuLimit (1 / 1000000)
    else 0
  min 100 (max 0 raw)

/-! UID allow-list policy (lib/cron.ts, buildAllowedUidSet) -/

/-- The environment-derived configuration consumed by the sampler:
the PROC_MODE and PROC_UIDS environment variables (none when unset) and
the calling process's own UID from process.getuid(). -/
structure Env where
  procMode : Option String
  procUids : Option String
  myUid : Int
deriving DecidableEq

/-- ENV_PROC_MODE: the PROC_MODE variable or the default all, lowered
and trimmed. -/
def envProcMode (e : Env) : String :=
  jsTrim (jsToLower (jsOrStr e.procMode "all"))

/-- ENV_PROC_UIDS: the PROC_UIDS variable, trimmed when present. -/
def envProcUids (e : Env) : Option String :=
  e.procUids.map jsTrim

/-- Parse an explicit UID list: split on commas, trim each part, drop
empty parts, parseInt each and collect the numbers that parse. -/
def parseUidList (s : String) : Finset Int :=
  (((splitOnChar ',' s).map jsTrim).filter (fun p => p ≠ "")).foldl
    (fun acc p =>
      match jsParseInt p with
      | some n => insert n acc
      | none => acc) ∅

/-- The mode switch of buildAllowedUidSet: user yields the singleton of
the own UID, user+root adds root, all and anything else yields none
(no filtering). -/
def uidSetFromMode (mode : String) (myUid : Int) : Option (Finset Int) :=
  if mode = "user" then some {myUid}
  else if mode = "user+root" then some {myUid, 0}
  else none

/-- buildAllowedUidSet from lib/cron.ts: an explicit non-empty PROC_UIDS
value wins and yields its parsed set, replaced by the singleton of the
own UID when that set is empty; otherwise the mode switch decides. -/
def buildAllowedUidSet (e : Env) : Option (Finset Int) :=
  match envProcUids e with
  | some s =>
    if s = "" then uidSetFromMode (envProcMode e) e.myUid
    else
      let set := parseUidList s
      if set = ∅ then some {e.myUid} else some set
  | none => uidSetFromMode (envProcMode e) e.myUid

/-- The per-PID filter applied during enumeration: with no allow-list
every PID passes; with an allow-list a PID passes only when its UID was
readable and is a member. -/
def uidAllowed (allowed : Option (Finset Int)) (uid : Option Int) : Bool :=
  match allowed with
  | none => true
  | some set =>
    match uid with
    | none => false
    | some u => decide (u ∈ set)

/-! Per-process sampling (lib/cron.ts, listProcessSamples) -/

/-- One slot of the prevProcTimes map: the cumulative jiffies and the
timestamp recorded at the previous observation of a PID. -/
structure PrevProc where
  jiffies : Int
  ts : Int
deriving DecidableEq

/-- The prevProcTimes JavaScript Map, as an insertion-ordered
association list with distinct keys. -/
abbrev ProcMap := List (Int × PrevProc)

/-- Map.prototype.set: overwrite in place when the key exists (keeping
insertion order), else append. -/
def mapSet (m : ProcMap) (pid : Int) (v : PrevProc) : ProcMap :=
  if m.any (fun e => e.1 = pid) then
    m.map (fun e => if e.1 = pid then (pid, v) else e)
  else m ++ [(pid, v)]

/-- What the per-PID /proc reads return for one PID: the owning UID
(none when status is unreadable), the stat-derived jiffies and parent
PID (none when the PID vanished mid-read), the resolved command line
and the resident set size in bytes. -/
structure PidInfo where
  uid : Option Int
  times : Option (Int × Int)
  cmdline : String
  rssBytes : Int

/-- ProcessSample as accumulated in the samples array of
listProcessSamples (before serialization). -/
structure Sample where
  pid : Int
  uid : Option Int
  ppid : Int
  command : String
  cpuPercent : Option ℚ
  memBytes : Int
  memPercent : Option ℚ
deriving DecidableEq

/-- The per-PID CPU attribution of listProcessSamples: none without a
previous observation or with non-positive elapsed time, otherwise the
jiffies delta converted to seconds over the elapsed seconds, scaled by
the CPU limit and clamped into 0..100. -/
def sampleCpuPct (prev : Option PrevProc) (nowMs jiffies : Int) (clkTck : Nat)
    (cpuLimit : ℚ) : Option ℚ :=
  match prev with
  | none => none
  | some p =>
    let deltaSec : ℚ := ((nowMs - p.ts : Int) : ℚ) / 1000
    if 0 < deltaSec then
      let deltaJ : ℚ := ((jiffies - p.jiffies : Int) : ℚ)
      let cpuTimeSec := deltaJ / (clkTck : ℚ)
      some (min 100 (max 0 (cpuTimeSec / deltaSec * (100 / max cpuLimit (1 / 1000000)))))
    else none

/-- The body of the per-PID loop of listProcessSamples: apply the UID
filter, drop the PID when its stat read failed, otherwise build its
sample (CPU delta against the previous state, memory percentage against
the memory limit) and overwrite the stored state with the current
jiffies and timestamp. -/
def processPid (allowed : Option (Finset Int)) (info : Int → PidInfo) (nowMs : Int)
    (clkTck : Nat) (cpuLimit : ℚ) (memLimitBytes : Int) (pid : Int) (st : ProcMap) :
    Option Sample × ProcMap :=
  let i := info pid
  if uidAllowed allowed i.uid then
    match i.times with
    | none => (none, st)
    | some (jiffies, ppid) =>
      let prev := st.lookup pid
      let cpuPct := sampleCpuPct prev nowMs jiffies clkTck cpuLimit
      let st1 := mapSet st pid { jiffies := jiffies, ts := nowMs }
      let memPct : Option ℚ :=
        if 0 < memLimitBytes then some (((i.rssBytes : ℚ) / (memLimitBytes : ℚ)) * 100)
        else none
      (some
        { pid := pid
          uid := i.uid
          ppid := ppid
          command := if i.cmdline = "" then "(unknown)" else i.cmdline
          cpuPercent := cpuPct
          memBytes := i.rssBytes
          memPercent := memPct }, st1)
  else (none, st)

/-- The enumeration loop of listProcessSamples, with the early break
once the samples array reaches PROC_MAX entries. -/
def sampleLoop (allowed : Option (Finset Int)) (info : Int → PidInfo) (nowMs : Int)
    (clkTck : Nat) (cpuLimit : ℚ) (memLimitBytes : Int) (procMax : Nat) :
    List Int → ProcMap → List Sample → List Sample × ProcMap
  | [], st, acc => (acc, st)
  | pid :: rest, st, acc =>
    match processPid allowed info nowMs clkTck cpuLimit memLimitBytes pid st with
    | (none, st1) => sampleLoop allowed info nowMs clkTck cpuLimit memLimitBytes procMax rest st1 acc
    | (some s, st1) =>
      let acc1 := acc ++ [s]
      if procMax ≤ acc1.length then (acc1, st1)
      else sampleLoop allowed info nowMs clkTck cpuLimit memLimitBytes procMax rest st1 acc1

/-- The same loop without the PROC_MAX break: every surviving PID's
sample in enumeration order.  Used to state what the cap keeps. -/
def sampleLoopAll (allowed : Option (Finset Int)) (info : Int → PidInfo) (nowMs : Int)
    (clkTck : Nat) (cpuLimit : ℚ) (memLimitBytes : Int) :
    List Int → ProcMap → List Sample
  | [], _ => []
  | pid :: rest, st =>
    match processPid allowed info nowMs clkTck cpuLimit memLimitBytes pid st with
    | (none, st1) => sampleLoopAll allowed info nowMs clkTck cpuLimit memLimitBytes rest st1
    | (some s, st1) => s :: sampleLoopAll allowed info nowMs clkTck cpuLimit memLimitBytes rest st1

/-- The comparator passed to Array.prototype.sort, as the relation
first-argument-may-come-before-second: descending by cpuPercent with
null treated as 0, ties broken by descending memBytes. -/
def sampleLE (a b : Sample) : Prop :=
  b.cpuPercent.getD 0 < a.cpuPercent.getD 0 ∨
    (a.cpuPercent.getD 0 = b.cpuPercent.getD 0 ∧ b.memBytes ≤ a.memBytes)

instance : DecidableRel sampleLE := fun a b => by
  unfold sampleLE; infer_instance

instance : IsTotal Sample sampleLE where
  total a b := by
    unfold sampleLE
    rcases lt_trichotomy (a.cpuPercent.getD 0) (b.cpuPercent.getD 0) with h | h | h
    · exact Or.inr (Or.inl h)
    · rcases le_total a.memBytes b.memBytes with hm | hm
      · exact Or.inr (Or.inr ⟨h.symm, hm⟩)
      · exact Or.inl (Or.inr ⟨h, hm⟩)
    · exact Or.inl (Or.inl h)

instance : IsTrans Sample sampleLE where
  trans a b c hab hbc := by
    unfold sampleLE at *
    rcases hab with h1 | ⟨h1, m1⟩ <;> rcases hbc with h2 | ⟨h2, m2⟩
    · exact Or.inl (h2.trans h1)
    · exact Or.inl (h2 ▸ h1)
    · exact Or.inl (h1 ▸ h2)
    · exact Or.inr ⟨h1.trans h2, m2.trans m1⟩

/-- listProcessSamples from lib/cron.ts: build the allow-list, run the
capped enumeration loop against the previous state, delete state entries
whose PID is absent from this cycle's listing, and sort the samples with
the descending cpu/memory comparator (Array.prototype.sort is stable, so
a stable insertion sort under the same total preorder is extensionally
the same function). -/
def listProcessSamples (e : Env) (clkTck : Nat) (procMax : Nat) (info : Int → PidInfo)
    (pids : List Int) (nowMs : Int) (cpuLimit : ℚ) (memLimitBytes : Int) (st : ProcMap) :
    List Sample × ProcMap :=
  let allowed := buildAllowedUidSet e
  let res := sampleLoop allowed info nowMs clkTck cpuLimit memLimitBytes procMax pids st []
  let cleaned := res.2.filter (fun entry => pids.contains entry.1)
  (List.insertionSort sampleLE res.1, cleaned)

/-- Modelled from the spec: the spec's reading of step 8 of the
enumeration contract, in which the full surviving sample list is sorted
by the comparator and only then truncated to its first PROC_MAX
elements, so the snapshot keeps the PROC_MAX greatest samples.  Stated
for comparison with listProcessSamples. -/
def listProcessSamplesSortFirst (e : Env) (clkTck : Nat) (procMax : Nat)
    (info : Int → PidInfo) (pids : List Int) (nowMs : Int) (cpuLimit : ℚ)
    (memLimitBytes : Int) (st : ProcMap) : List Sample :=
  let allowed := buildAllowedUidSet e
  let all := sampleLoopAll allowed info nowMs clkTck cpuLimit memLimitBytes pids st
  (List.insertionSort sampleLE all).take procMax

/-! Snapshot assembly (lib/cron.ts, collectMetrics) -/

/-- The module-level mutable sampler state: previous container CPU
counter and timestamp (both 0 before the first cycle) and the per-PID
map. -/
structure SamplerState where
  lastCpuUsageNs : Int
  lastTsContainer : Int
  prevProcTimes : ProcMap

/-- The sampler state at process start: the globals are initialised to
zero and the map is empty. -/
def initialSamplerState : SamplerState :=
  { lastCpuUsageNs := 0, lastTsContainer := 0, prevProcTimes := [] }

/-- Everything one collection cycle reads from the outside world:
cgroup files, df results for /config and / as (total, used) in bytes,
the /proc PID listing and per-PID reads, the clock, the environment and
the sysconf constants. -/
structure World where
  version : CgVersion
  fs : CgroupFS
  usageNs : Int
  dfConfig : Option (Int × Int)
  dfRoot : Option (Int × Int)
  pids : List Int
  info : Int → PidInfo
  nowMs : Int
  env : Env
  clkTck : Nat
  procMax : Nat

/-- A serialized process entry of the snapshot: percentages are decimal
strings, null (none) when the underlying value is undefined. -/
structure SerializedProcess where
  pid : Int
  uid : Option Int
  ppid : Int
  command : String
  cpu_usage_percent : Option String
  memory_usage_bytes : Int
  memory_usage_percent : Option String
deriving DecidableEq

/-- Serialization of one process sample in the data object of
collectMetrics; a rational is always finite, so the isFinite guard of
the source always takes the toFixed branch here. -/
def serializeProcessSample (p : Sample) : SerializedProcess :=
  { pid := p.pid
    uid := p.uid
    ppid := p.ppid
    command := p.command
    cpu_usage_percent := p.cpuPercent.map ratToFixed2
    memory_usage_bytes := p.memBytes
    memory_usage_percent := p.memPercent.map ratToFixed2 }

/-- The snapshot built by collectMetrics: both the numeric percentage
values (as computed before serialization) and the serialized decimal
strings stored in the data object. -/
structure MetricsSnapshot where
  timestamp : Int
  cpu_limit : ℚ
  cpuUsagePercent : ℚ
  cpu_usage_percent : String
  memory_limit_bytes : Int
  memory_usage_bytes : Int
  memPercent : ℚ
  memory_usage_percent : String
  storage_total_bytes : Int
  storage_used_bytes : Int
  storagePercent : ℚ
  storage_usage_percent : String
  processes : List SerializedProcess

/-- collectMetrics from lib/cron.ts (the pure data flow: reads are
supplied by the World, the redis write and the uid-name map are handled
by outside collaborators).  Returns the snapshot and the updated
sampler state. -/
def collectMetrics (w : World) (st : SamplerState) : MetricsSnapshot × SamplerState :=
  let memR := readMemory w.version w.fs
  let memPercent := memPercentOf memR.memUsage memR.memLimit
  let now := w.nowMs
  let cpuLimit := getCpuLimit w.version w.fs
  let cpuUsagePercent :=
    containerCpuPercent st.lastCpuUsageNs st.lastTsContainer w.usageNs now cpuLimit
  let storage := match w.dfConfig with | some s => some s | none => w.dfRoot
  let storageTotal := (storage.map Prod.fst).getD 0
  let storageUsed := (storage.map Prod.snd).getD 0
  let storagePercent := storagePercentOf storageUsed storageTotal
  let procRes :=
    listProcessSamples w.env w.clkTck w.procMax w.info w.pids now cpuLimit memR.memLimit
      st.prevProcTimes
  ({ timestamp := now
     cpu_limit := cpuLimit
     cpuUsagePercent := cpuUsagePercent
     cpu_usage_percent := ratToFixed2 cpuUsagePercent
     memory_limit_bytes := memR.memLimit
     memory_usage_bytes := memR.memUsage
     memPercent := memPercent
     memory_usage_percent := ratToFixed2 memPercent
     storage_total_bytes := storageTotal
     storage_used_bytes := storageUsed
     storagePercent := storagePercent
     storage_usage_percent := ratToFixed2 storagePercent
     processes := procRes.1.map serializeProcessSample },
   { lastCpuUsageNs := w.usageNs
     lastTsContainer := now
     prevProcTimes := procRes.2 })

/-! Threshold evaluation (lib/cron.ts, checkThresholds) -/

/-- ThresholdSettings from lib/admin-settings.ts. -/
structure ThresholdSettings where
  cpu : ℚ
  memory : ℚ
  storage : ℚ
  enabled : Bool
deriving DecidableEq

/-- The lastNotificationTime module state: per-resource timestamp of the
last sent notification, none before the first (JavaScript undefined). -/
structure LastNotificationTime where
  cpu : Option Int := none
  memory : Option Int := none
  storage : Option Int := none
deriving DecidableEq

/-- NOTIFICATION_COOLDOWN: five minutes in milliseconds. -/
def NOTIFICATION_COOLDOWN : Int := 5 * 60 * 1000

/-- A webhook notification sent by checkThresholds: the resource name,
the measured value and the configured threshold. -/
structure NotifEvent where
  resource : String
  value : ℚ
  threshold : ℚ
deriving DecidableEq

/-- One resource's block of checkThresholds: when the value is at or
above the threshold and the cooldown has elapsed since the recorded
last notification (0 when none), notify and record now; otherwise leave
the recorded timestamp unchanged and send nothing. -/
def checkOneThreshold (value threshold : ℚ) (lastOpt : Option Int) (nowMs : Int) :
    Bool × Option Int :=
  if threshold ≤ value then
    let lastNotif := lastOpt.getD 0
    if NOTIFICATION_COOLDOWN ≤ nowMs - lastNotif then (true, some nowMs)
    else (false, lastOpt)
  else (false, lastOpt)

/-- checkThresholds from lib/cron.ts: nothing happens when threshold
checking is disabled; otherwise the three resources are checked
independently against their thresholds and cooldowns.  Returns the
updated lastNotificationTime state and the notifications sent. -/
def checkThresholds (settings : ThresholdSettings) (cpu memory storage : ℚ)
    (nowMs : Int) (st : LastNotificationTime) : LastNotificationTime × List NotifEvent :=
  if settings.enabled then
    let rCpu := checkOneThreshold cpu settings.cpu st.cpu nowMs
    let rMem := checkOneThreshold memory settings.memory st.memory nowMs
    let rStor := checkOneThreshold storage settings.storage st.storage nowMs
    ({ cpu := rCpu.2, memory := rMem.2, storage := rStor.2 },
      (if rCpu.1 then [{ resource := "cpu", value := cpu, threshold := settings.cpu }] else []) ++
        (if rMem.1 then [{ resource := "memory", value := memory, threshold := settings.memory }]
          else []) ++
        (if rStor.1 then [{ resource := "storage", value := storage, threshold := settings.storage }]
          else []))
  else (st, [])

/-! Concrete fixtures used by counterexamples and witnesses -/

/-- A minimal enabled webhook configuration. -/
def cfg0 : WebhookConfig :=
  { id := "w1"
    name := "hook"
    url := "http://example.invalid/hook"
    method := "POST"
    headers := []
    body := ""
    enabled := true }

/-- A filesystem snapshot with every cgroup file absent: a bare host
with 4 logical CPUs. -/
def fs0 : CgroupFS :=
  { cpuMaxV2 := none
    cfsQuotaV1 := none
    cfsPeriodV1 := none
    memMaxV2 := none
    memCurrentV2 := none
    memLimitV1 := none
    memUsageV1 := none
    memTotalKb := none
    numCpus := 4 }

/-- Environment with the default UID mode (all) and no explicit list. -/
def envAll : Env := { procMode := some "all", procUids := none, myUid := 0 }

/-- Two live processes: PID 1 small, PID 2 with far more resident
memory.  Both on first observation. -/
def infoTwoPids : Int → PidInfo := fun pid =>
  if pid = 1 then { uid := some 0, times := some (0, 0), cmdline := "a", rssBytes := 10 }
  else { uid := some 0, times := some (0, 0), cmdline := "b", rssBytes := 1000 }

/-- A process whose previous observation is already in the sampler
state: 50 jiffies consumed over one second at CLK_TCK 100 and one core,
hence 50 percent CPU. -/
def infoBusyPid : Int → PidInfo := fun _ =>
  { uid := some 0, times := some (50, 0), cmdline := "busy", rssBytes := 0 }

/-- A one-core v2 world running the busy process. -/
def worldBusy : World :=
  { version := .v2
    fs := { fs0 with numCpus := 1 }
    usageNs := 0
    dfConfig := none
    dfRoot := none
    pids := [1]
    info := infoBusyPid
    nowMs := 1000
    env := envAll
    clkTck := 100
    procMax := 8192 }

/-- Sampler state in which PID 1 was already observed at time 0 with 0
jiffies. -/
def stBusy : SamplerState :=
  { lastCpuUsageNs := 0
    lastTsContainer := 0
    prevProcTimes := [(1, { jiffies := 0, ts := 0 })] }

/-- A v1 world whose container memory usage exceeds its limit. -/
def worldMemOver : World :=
  { version := .v1
    fs := { fs0 with memLimitV1 := some "100", memUsageV1 := some "150" }
    usageNs := 0
    dfConfig := none
    dfRoot := none
    pids := []
    info := fun _ => { uid := none, times := none, cmdline := "", rssBytes := 0 }
    nowMs := 1000
    env := envAll
    clkTck := 100
    procMax := 8192 }

/-! Shared helper lemmas -/

/-- Serializing the rational zero prints two fixed fraction digits. -/
theorem ratToFixed2_zero : ratToFixed2 0 = "0.00" := by
  norm_num [ratToFixed2]
  decide

/-- A value clamped with min 100 (max 0 _) lies between 0 and 100. -/
theorem clamp_bounds (x : ℚ) : 0 ≤ min 100 (max 0 x) ∧ min 100 (max 0 x) ≤ 100 :=
  ⟨le_min (by norm_num) (le_max_left 0 x), min_le_left 100 (max 0 x)⟩

/-- The per-PID CPU attribution never leaves 0..100 when it is defined. -/
theorem sampleCpuPct_bounds (prev : Option PrevProc) (nowMs jiffies : Int) (clkTck : Nat)
    (cpuLimit : ℚ) (q : ℚ) :
    sampleCpuPct prev nowMs jiffies clkTck cpuLimit = some q → 0 ≤ q ∧ q ≤ 100 := by
  intro hq
  cases prev with
  | none => simp [sampleCpuPct] at hq
  | some p =>
    simp only [sampleCpuPct] at hq
    split at hq
    · have hqe := Option.some.inj hq
      rw [← hqe]
      exact clamp_bounds _
    · exact absurd hq (by simp)

/-- A sample emitted by the enumeration body has a clamped cpuPercent. -/
theorem processPid_cpu_bounds (allowed : Option (Finset Int)) (info : Int → PidInfo)
    (nowMs : Int) (clkTck : Nat) (cpuLimit : ℚ) (memLimitBytes : Int) (pid : Int)
    (st : ProcMap) (s : Sample) (st1 : ProcMap) :
    processPid allowed info nowMs clkTck cpuLimit memLimitBytes pid st = (some s, st1) →
      ∀ q, s.cpuPercent = some q → 0 ≤ q ∧ q ≤ 100 := by
  intro hps q hq
  simp only [processPid] at hps
  by_cases hu : uidAllowed allowed (info pid).uid = true
  · rw [if_pos hu] at hps
    cases ht : (info pid).times with
    | none => rw [ht] at hps; simp at hps
    | some jp =>
      obtain ⟨j1, j2⟩ := jp
      rw [ht] at hps
      have h1 := congrArg Prod.fst hps
      simp only at h1
      have h2 := Option.some.inj h1
      rw [← h2] at hq
      exact sampleCpuPct_bounds _ _ _ _ _ _ hq
  · rw [if_neg hu] at hps
    simp at hps

/-- Every cpuPercent value in the capped enumeration loop's output is
clamped into 0..100, provided the accumulator already satisfies it. -/
theorem sampleLoop_cpu_bounds (allowed : Option (Finset Int)) (info : Int → PidInfo)
    (nowMs : Int) (clkTck : Nat) (cpuLimit : ℚ) (memLimitBytes : Int) (procMax : Nat) :
    ∀ (pids : List Int) (st : ProcMap) (acc : List Sample),
      (∀ s ∈ acc, ∀ q, s.cpuPercent = some q → 0 ≤ q ∧ q ≤ 100) →
      ∀ s ∈ (sampleLoop allowed info nowMs clkTck cpuLimit memLimitBytes procMax pids st
          acc).1,
        ∀ q, s.cpuPercent = some q → 0 ≤ q ∧ q ≤ 100 := by
  intro pids
  induction pids with
  | nil =>
    intro st acc hacc s hs
    simp only [sampleLoop] at hs
    exact hacc s hs
  | cons pid rest ih =>
    intro st acc hacc s hs
    cases hps : processPid allowed info nowMs clkTck cpuLimit memLimitBytes pid st with
    | mk os st1 =>
      cases os with
      | none =>
        simp only [sampleLoop, hps] at hs
        exact ih st1 acc hacc s hs
      | some s1 =>
        have hacc1 : ∀ t ∈ acc ++ [s1], ∀ q, t.cpuPercent = some q → 0 ≤ q ∧ q ≤ 100 := by
          intro t ht
          rcases List.mem_append.mp ht with h | h
          · exact hacc t h
          · rw [List.mem_singleton.mp h]
            exact processPid_cpu_bounds allowed info nowMs clkTck cpuLimit memLimitBytes pid
              st s1 st1 hps
        simp only [sampleLoop, hps] at hs
        by_cases hfull : procMax ≤ (acc ++ [s1]).length
        · rw [if_pos hfull] at hs
          exact hacc1 s hs
        · rw [if_neg hfull] at hs
          exact ih st1 (acc ++ [s1]) hacc1 s hs

/-- The container CPU percentage is clamped into 0..100. -/
theorem containerCpuPercent_bounds (lastCpuUsageNs lastTsContainer usageNs nowMs : Int)
    (cpuLimit : ℚ) :
    0 ≤ containerCpuPercent lastCpuUsageNs lastTsContainer usageNs nowMs cpuLimit ∧
      containerCpuPercent lastCpuUsageNs lastTsContainer usageNs nowMs cpuLimit ≤ 100 := by
  unfold containerCpuPercent
  exact clamp_bounds _

/-- The capped loop keeps exactly the first PROC_MAX surviving samples
of the uncapped enumeration, in order. -/
theorem sampleLoop_eq_takeAll (allowed : Option (Finset Int)) (info : Int → PidInfo)
    (nowMs : Int) (clkTck : Nat) (cpuLimit : ℚ) (memLimitBytes : Int) (procMax : Nat) :
    ∀ (pids : List Int) (st : ProcMap) (acc : List Sample), acc.length < procMax →
      (sampleLoop allowed info nowMs clkTck cpuLimit memLimitBytes procMax pids st acc).1 =
        acc ++ (sampleLoopAll allowed info nowMs clkTck cpuLimit memLimitBytes pids st).take
          (procMax - acc.length) := by
  intro pids
  induction pids with
  | nil => intro st acc hlen; simp [sampleLoop, sampleLoopAll]
  | cons pid rest ih =>
    intro st acc hlen
    cases hps : processPid allowed info nowMs clkTck cpuLimit memLimitBytes pid st with
    | mk os st1 =>
      cases os with
      | none =>
        simp only [sampleLoop, sampleLoopAll, hps]
        exact ih st1 acc hlen
      | some s1 =>
        simp only [sampleLoop, sampleLoopAll, hps]
        by_cases hfull : procMax ≤ (acc ++ [s1]).length
        · rw [if_pos hfull]
          have hone : procMax - acc.length = 1 := by
            simp only [List.length_append, List.length_cons, List.length_nil] at hfull
            omega
          rw [hone]
          simp
        · rw [if_neg hfull]
          have hlt : (acc ++ [s1]).length < procMax := by
            simp only [List.length_append, List.length_cons, List.length_nil] at hfull ⊢
            omega
          rw [ih st1 (acc ++ [s1]) hlt]
          have hgap : procMax - acc.length = (procMax - (acc ++ [s1]).length) + 1 := by
            simp only [List.length_append, List.length_cons, List.length_nil]
            omega
          rw [hgap, List.take_succ_cons]
          simp

/-! Claim theorems -/

/-- C1, counterexample: executeWebhook records success=false for a
received HTTP 500 response (status stored, success not set), refuting
the claim that any received 2xx-5xx response yields success=true. -/
theorem webhook_500_recorded_unsuccessful :
    (executeWebhook cfg0 "CPU threshold exceeded: 85.0" (FetchOutcome.response 500) 0 10
        "e1").statusCode = some 500 ∧
      (executeWebhook cfg0 "CPU threshold exceeded: 85.0" (FetchOutcome.response 500) 0 10
          "e1").success = false :=
  ⟨rfl, rfl⟩

/-- C1, amended: the recorded WebhookHistoryEntry has success=true iff
the HTTP response status is 2xx (Response.ok); any received response has
its status code recorded; a transport-level failure yields success=false
with no status code and the error message recorded. -/
theorem webhook_history_success_iff_2xx (config : WebhookConfig) (reason : String)
    (now responseTime : Int) (entryId : String) :
    (∀ status : Nat,
        (executeWebhook config reason (FetchOutcome.response status) now responseTime
            entryId).statusCode = some status ∧
          ((executeWebhook config reason (FetchOutcome.response status) now responseTime
              entryId).success = true ↔ 200 ≤ status ∧ status < 300)) ∧
      ∀ msg : String,
        (executeWebhook config reason (FetchOutcome.failure msg) now responseTime
            entryId).statusCode = none ∧
          (executeWebhook config reason (FetchOutcome.failure msg) now responseTime
              entryId).success = false ∧
            (executeWebhook config reason (FetchOutcome.failure msg) now responseTime
                entryId).error = some msg := by
  refine ⟨fun status => ⟨rfl, ?_⟩, fun msg => ⟨rfl, rfl, rfl⟩⟩
  simp [executeWebhook, responseOk]

/-- C4, counterexample: under cgroup v1 with the memory limit file
absent, the computed memory limit is 0, not the host total memory that
the claim promises (here 4000000 kB of MemTotal). -/
theorem v1_absent_memory_limit_not_host_total :
    (readMemory CgVersion.v1 { fs0 with memTotalKb := some 4000000 }).memLimit = 0 ∧
      (0 : Int) ≠ 4000000 * 1024 := by
  exact ⟨by decide, by decide⟩

/-- C4, amended: the CPU limit falls back to the host logical CPU count
for both cgroup versions when the control files are absent or report an
unlimited or non-positive quota; the memory limit falls back to the host
total memory only under cgroup v2 (absent or unlimited memory.max),
while under v1 an absent memory limit file yields 0 with no host
fallback.  All reads are total (no exception escapes). -/
theorem resource_limit_fallbacks :
    (∀ fs : CgroupFS, fs.cpuMaxV2 = none → getCpuLimit CgVersion.v2 fs = fs.numCpus) ∧
      (∀ fs : CgroupFS,
        fs.cpuMaxV2 = some "max 100000" → getCpuLimit CgVersion.v2 fs = fs.numCpus) ∧
      (∀ fs : CgroupFS, fs.cfsQuotaV1 = none → getCpuLimit CgVersion.v1 fs = fs.numCpus) ∧
      (∀ fs : CgroupFS,
        fs.cfsQuotaV1 = some "-1" → getCpuLimit CgVersion.v1 fs = fs.numCpus) ∧
      (∀ (fs : CgroupFS) (kb : Int),
        fs.memMaxV2 = none → fs.memTotalKb = some kb →
          (readMemory CgVersion.v2 fs).memLimit = kb * 1024) ∧
      (∀ (fs : CgroupFS) (kb : Int),
        fs.memMaxV2 = some "max" → fs.memTotalKb = some kb →
          (readMemory CgVersion.v2 fs).memLimit = kb * 1024) ∧
      ∀ fs : CgroupFS, fs.memLimitV1 = none → (readMemory CgVersion.v1 fs).memLimit = 0 := by
  refine ⟨fun fs h => ?_, fun fs h => ?_, fun fs h => ?_, fun fs h => ?_,
    fun fs kb h hk => ?_, fun fs kb h hk => ?_, fun fs h => ?_⟩
  · simp [getCpuLimit, h]
  · have e0 : jsParseInt ((splitOnChar ' ' (jsTrim "max 100000"))[0]?.getD "") = none := by
      decide
    simp [getCpuLimit, h, e0]
  · have e1 : jsParseInt (jsTrim "0") = some 0 := by decide
    cases hper : jsParseInt (jsTrim (fs.cfsPeriodV1.getD "100000")) with
    | none => simp [getCpuLimit, h, e1, hper]
    | some p => simp [getCpuLimit, h, e1, hper]
  · have e1 : jsParseInt (jsTrim "-1") = some (-1) := by decide
    cases hper : jsParseInt (jsTrim (fs.cfsPeriodV1.getD "100000")) with
    | none => simp [getCpuLimit, h, e1, hper]
    | some p =>
      have : ¬((0 : Int) < -1 ∧ 0 < p) := by omega
      simp [getCpuLimit, h, e1, hper, this]
  · simp [readMemory, readNumber, h, hk]
  · have e2 : jsParseInt (jsTrim "max") = none := by decide
    simp [readMemory, readNumber, h, hk, e2]
  · simp [readMemory, readNumber, h]

/-- C4, witness. -/
theorem resource_limit_fallbacks_witness :
    getCpuLimit CgVersion.v2 fs0 = fs0.numCpus ∧
      getCpuLimit CgVersion.v1 fs0 = fs0.numCpus ∧
      (readMemory CgVersion.v2 { fs0 with memTotalKb := some 4000000 }).memLimit =
        4000000 * 1024 ∧
      (readMemory CgVersion.v1 fs0).memLimit = 0 :=
  ⟨resource_limit_fallbacks.1 fs0 rfl,
    resource_limit_fallbacks.2.2.1 fs0 rfl,
    resource_limit_fallbacks.2.2.2.2.1 { fs0 with memTotalKb := some 4000000 } 4000000 rfl rfl,
    resource_limit_fallbacks.2.2.2.2.2.2 fs0 rfl⟩

/-- C10: on the first collection cycle the container CPU percentage is
the measured-looking number 0 serialized as 0.00 (the field is a plain
string, never null), while a first-observation process sample has a
null cpuPercent that serializes to null. -/
theorem first_cycle_container_cpu_zero_not_null :
    (∀ usageNs nowMs : Int, ∀ cpuLimit : ℚ,
        containerCpuPercent 0 0 usageNs nowMs cpuLimit = 0) ∧
      (∀ w : World,
        (collectMetrics w initialSamplerState).1.cpuUsagePercent = 0 ∧
          (collectMetrics w initialSamplerState).1.cpu_usage_percent = "0.00") ∧
      (∀ (nowMs jiffies : Int) (clkTck : Nat) (cpuLimit : ℚ),
        sampleCpuPct none nowMs jiffies clkTck cpuLimit = none) ∧
      ∀ (pid : Int) (uid : Option Int) (ppid : Int) (command : String) (memBytes : Int)
        (memPercent : Option ℚ),
        (serializeProcessSample
            { pid := pid, uid := uid, ppid := ppid, command := command, cpuPercent := none,
              memBytes := memBytes, memPercent := memPercent }).cpu_usage_percent = none := by
  have hzero : ∀ usageNs nowMs : Int, ∀ cpuLimit : ℚ,
      containerCpuPercent 0 0 usageNs nowMs cpuLimit = 0 := by
    intro usageNs nowMs cpuLimit
    simp [containerCpuPercent]
  refine ⟨hzero, fun w => ?_, fun nowMs jiffies clkTck cpuLimit => rfl,
    fun pid uid ppid command memBytes memPercent => rfl⟩
  constructor
  · simpa [collectMetrics, initialSamplerState] using
      hzero w.usageNs w.nowMs (getCpuLimit w.version w.fs)
  · simpa [collectMetrics, initialSamplerState,
      hzero w.usageNs w.nowMs (getCpuLimit w.version w.fs)] using ratToFixed2_zero

/-- C9: the UID allow-list policy is a pure function of the mode, the
explicit list and the own UID: a non-empty explicit PROC_UIDS value
yields its parsed set (the singleton of the own UID when it parses
empty); the explicit list "5, 7,7" yields the set of 5 and 7;
mode user+root with own UID 1000 yields the set of 0 and 1000; mode all
yields no filter, under which every UID passes. -/
theorem uid_allow_list_policy :
    (∀ (e : Env) (s : String), e.procUids = some s → jsTrim s ≠ "" →
        buildAllowedUidSet e =
          some (if parseUidList (jsTrim s) = ∅ then {e.myUid} else parseUidList (jsTrim s))) ∧
      (∀ (mode : Option String) (uid : Int),
        buildAllowedUidSet { procMode := mode, procUids := some "5, 7,7", myUid := uid } =
          some ({5, 7} : Finset Int)) ∧
      (buildAllowedUidSet { procMode := some "user+root", procUids := none, myUid := 1000 } =
        some ({0, 1000} : Finset Int)) ∧
      (∀ uid : Int,
        buildAllowedUidSet { procMode := some "all", procUids := none, myUid := uid } = none) ∧
      ∀ (uid : Int) (target : Option Int),
        uidAllowed
          (buildAllowedUidSet { procMode := some "all", procUids := none, myUid := uid })
          target = true := by
  refine ⟨?_, ?_, ?_, fun uid => rfl, fun uid target => rfl⟩
  · intro e s h hne
    simp only [buildAllowedUidSet, envProcUids, h, Option.map_some']
    rw [if_neg hne]
    by_cases hp : parseUidList (jsTrim s) = ∅
    · simp [hp]
    · simp [hp]
  · intro mode uid
    have h1 : jsTrim "5, 7,7" = "5, 7,7" := by decide
    have h2 : parseUidList "5, 7,7" = ({5, 7} : Finset Int) := by decide
    have h3 : parseUidList "5, 7,7" ≠ (∅ : Finset Int) := by decide
    simp [buildAllowedUidSet, envProcUids, h1, h2, h3]
  · rw [Finset.pair_comm]
    decide

/-- C9, witness. -/
theorem uid_allow_list_policy_witness :
    buildAllowedUidSet { procMode := none, procUids := some "9", myUid := 3 } =
        some (if parseUidList (jsTrim "9") = ∅ then {(3 : Int)} else parseUidList (jsTrim "9")) ∧
      buildAllowedUidSet { procMode := some "user+root", procUids := none, myUid := 1000 } =
        some ({0, 1000} : Finset Int) :=
  ⟨uid_allow_list_policy.1 { procMode := none, procUids := some "9", myUid := 3 } "9" rfl
      (by decide),
    uid_allow_list_policy.2.2.1⟩

/-- C5: per-resource threshold gating: with thresholds enabled, a value
at or above its threshold notifies exactly when at least the five-minute
cooldown has elapsed since that resource's recorded last notification
(and then records now); otherwise it is silently suppressed with the
state unchanged.  The concrete trace with threshold 80: 85 percent at t0
notifies, 90 percent one minute later does not, 90 percent six minutes
after t0 notifies again. -/
theorem threshold_cooldown :
    (∀ (value threshold : ℚ) (lastOpt : Option Int) (nowMs : Int),
        threshold ≤ value → NOTIFICATION_COOLDOWN ≤ nowMs - lastOpt.getD 0 →
          checkOneThreshold value threshold lastOpt nowMs = (true, some nowMs)) ∧
      (∀ (value threshold : ℚ) (lastOpt : Option Int) (nowMs : Int),
        threshold ≤ value → nowMs - lastOpt.getD 0 < NOTIFICATION_COOLDOWN →
          checkOneThreshold value threshold lastOpt nowMs = (false, lastOpt)) ∧
      ∀ t0 : Int, NOTIFICATION_COOLDOWN ≤ t0 →
        checkThresholds { cpu := 80, memory := 80, storage := 80, enabled := true } 85 0 0 t0
            { cpu := none, memory := none, storage := none } =
          ({ cpu := some t0, memory := none, storage := none },
            [{ resource := "cpu", value := 85, threshold := 80 }]) ∧
        checkThresholds { cpu := 80, memory := 80, storage := 80, enabled := true } 90 0 0
            (t0 + 60000) { cpu := some t0, memory := none, storage := none } =
          ({ cpu := some t0, memory := none, storage := none }, []) ∧
        checkThresholds { cpu := 80, memory := 80, storage := 80, enabled := true } 90 0 0
            (t0 + 360000) { cpu := some t0, memory := none, storage := none } =
          ({ cpu := some (t0 + 360000), memory := none, storage := none },
            [{ resource := "cpu", value := 90, threshold := 80 }]) := by
  have hone : ∀ (value threshold : ℚ) (lastOpt : Option Int) (nowMs : Int),
      threshold ≤ value → NOTIFICATION_COOLDOWN ≤ nowMs - lastOpt.getD 0 →
        checkOneThreshold value threshold lastOpt nowMs = (true, some nowMs) := by
    intro value threshold lastOpt nowMs hv hc
    simp only [checkOneThreshold]
    rw [if_pos hv, if_pos hc]
  have htwo : ∀ (value threshold : ℚ) (lastOpt : Option Int) (nowMs : Int),
      threshold ≤ value → nowMs - lastOpt.getD 0 < NOTIFICATION_COOLDOWN →
        checkOneThreshold value threshold lastOpt nowMs = (false, lastOpt) := by
    intro value threshold lastOpt nowMs hv hc
    simp only [checkOneThreshold]
    rw [if_pos hv, if_neg (not_le.mpr hc)]
  refine ⟨hone, htwo, ?_⟩
  intro t0 ht0
  have hz : ∀ nowMs : Int, checkOneThreshold 0 80 none nowMs = (false, none) := by
    intro nowMs
    simp only [checkOneThreshold]
    rw [if_neg (by norm_num : ¬((80 : ℚ) ≤ 0))]
  have c1 : checkOneThreshold 85 80 none t0 = (true, some t0) :=
    hone 85 80 none t0 (by norm_num) (by simpa using ht0)
  have c2 : checkOneThreshold 90 80 (some t0) (t0 + 60000) = (false, some t0) :=
    htwo 90 80 (some t0) (t0 + 60000) (by norm_num)
      (by simp only [Option.getD_some, NOTIFICATION_COOLDOWN]; omega)
  have c3 : checkOneThreshold 90 80 (some t0) (t0 + 360000) = (true, some (t0 + 360000)) :=
    hone 90 80 (some t0) (t0 + 360000) (by norm_num)
      (by simp only [Option.getD_some, NOTIFICATION_COOLDOWN]; omega)
  refine ⟨?_, ?_, ?_⟩ <;> simp [checkThresholds, c1, c2, c3, hz]

/-- C5, witness. -/
theorem threshold_cooldown_witness :
    checkThresholds { cpu := 80, memory := 80, storage := 80, enabled := true } 85 0 0 1000000
        { cpu := none, memory := none, storage := none } =
      ({ cpu := some 1000000, memory := none, storage := none },
        [{ resource := "cpu", value := 85, threshold := 80 }]) ∧
      checkThresholds { cpu := 80, memory := 80, storage := 80, enabled := true } 90 0 0
          (1000000 + 60000) { cpu := some 1000000, memory := none, storage := none } =
        ({ cpu := some 1000000, memory := none, storage := none }, []) ∧
      checkThresholds { cpu := 80, memory := 80, storage := 80, enabled := true } 90 0 0
          (1000000 + 360000) { cpu := some 1000000, memory := none, storage := none } =
        ({ cpu := some (1000000 + 360000), memory := none, storage := none },
          [{ resource := "cpu", value := 90, threshold := 80 }]) :=
  threshold_cooldown.2.2 1000000 (by decide)

/-- C7: per-process cpuPercent is null exactly on first observation (no
previous state) or on non-positive elapsed time; with a previous state
and positive elapsed time it equals the clamped delta formula, lies in
0..100, and is exactly the value stored in the sample emitted by the
enumeration body. -/
theorem per_process_cpu_percent :
    (∀ (nowMs jiffies : Int) (clkTck : Nat) (cpuLimit : ℚ),
        sampleCpuPct none nowMs jiffies clkTck cpuLimit = none) ∧
      (∀ (p : PrevProc) (nowMs jiffies : Int) (clkTck : Nat) (cpuLimit : ℚ),
        nowMs - p.ts ≤ 0 → sampleCpuPct (some p) nowMs jiffies clkTck cpuLimit = none) ∧
      (∀ (p : PrevProc) (nowMs jiffies : Int) (clkTck : Nat) (cpuLimit : ℚ),
        0 < nowMs - p.ts →
          sampleCpuPct (some p) nowMs jiffies clkTck cpuLimit =
            some (min 100 (max 0
              (((jiffies - p.jiffies : Int) : ℚ) / (clkTck : ℚ) /
                  (((nowMs - p.ts : Int) : ℚ) / 1000) * 100 /
                max cpuLimit (1 / 1000000))))) ∧
      (∀ (prev : Option PrevProc) (nowMs jiffies : Int) (clkTck : Nat) (cpuLimit : ℚ) (q : ℚ),
        sampleCpuPct prev nowMs jiffies clkTck cpuLimit = some q → 0 ≤ q ∧ q ≤ 100) ∧
      ∀ (allowed : Option (Finset Int)) (info : Int → PidInfo) (nowMs : Int) (clkTck : Nat)
        (cpuLimit : ℚ) (memLimitBytes : Int) (pid : Int) (st : ProcMap) (s : Sample)
        (st1 : ProcMap),
        processPid allowed info nowMs clkTck cpuLimit memLimitBytes pid st = (some s, st1) →
          ∃ jp : Int × Int, (info pid).times = some jp ∧
            s.cpuPercent = sampleCpuPct (st.lookup pid) nowMs jp.1 clkTck cpuLimit := by
  refine ⟨fun _ _ _ _ => rfl, ?_, ?_, ?_, ?_⟩
  · intro p nowMs jiffies clkTck cpuLimit h
    have hx : ((nowMs - p.ts : Int) : ℚ) ≤ 0 := by exact_mod_cast h
    have hneg : ¬(0 < ((nowMs - p.ts : Int) : ℚ) / 1000) := by
      intro hpos
      rcases div_pos_iff.mp hpos with ⟨h1, _⟩ | ⟨_, h2⟩ <;> linarith
    simp only [sampleCpuPct]
    rw [if_neg hneg]
  · intro p nowMs jiffies clkTck cpuLimit h
    have hx : (0 : ℚ) < ((nowMs - p.ts : Int) : ℚ) := by exact_mod_cast h
    have hpos : 0 < ((nowMs - p.ts : Int) : ℚ) / 1000 := by positivity
    simp only [sampleCpuPct]
    rw [if_pos hpos]
    have hform :
        ((jiffies - p.jiffies : Int) : ℚ) / (clkTck : ℚ) / (((nowMs - p.ts : Int) : ℚ) / 1000) *
            (100 / max cpuLimit (1 / 1000000)) =
          ((jiffies - p.jiffies : Int) : ℚ) / (clkTck : ℚ) / (((nowMs - p.ts : Int) : ℚ) / 1000) *
              100 / max cpuLimit (1 / 1000000) := by
      rw [mul_div_assoc]
    rw [hform]
  · intro prev nowMs jiffies clkTck cpuLimit q hq
    cases prev with
    | none => simp [sampleCpuPct] at hq
    | some p =>
      simp only [sampleCpuPct] at hq
      split at hq
      · have hqe := Option.some.inj hq
        rw [← hqe]
        exact clamp_bounds _
      · exact absurd hq (by simp)
  · intro allowed info nowMs clkTck cpuLimit memLimitBytes pid st s st1 hps
    simp only [processPid] at hps
    by_cases hu : uidAllowed allowed (info pid).uid = true
    · rw [if_pos hu] at hps
      cases ht : (info pid).times with
      | none => rw [ht] at hps; simp at hps
      | some jp =>
        obtain ⟨j1, j2⟩ := jp
        rw [ht] at hps
        refine ⟨(j1, j2), rfl, ?_⟩
        have h1 := congrArg Prod.fst hps
        simp only at h1
        have h2 := Option.some.inj h1
        rw [← h2]
    · rw [if_neg hu] at hps
      simp at hps

/-- C7, witness. -/
theorem per_process_cpu_percent_witness :
    sampleCpuPct none 1000 50 100 1 = none ∧
      sampleCpuPct (some { jiffies := 0, ts := 2000 }) 1000 50 100 1 = none ∧
      (0 ≤ (50 : ℚ) ∧ (50 : ℚ) ≤ 100) ∧
      ∃ jp : Int × Int, (infoTwoPids 1).times = some jp ∧
        (Sample.cpuPercent
            { pid := 1, uid := some 0, ppid := 0, command := "a", cpuPercent := none,
              memBytes := 10, memPercent := none }) =
          sampleCpuPct (([] : ProcMap).lookup 1) 1000 jp.1 100 1 :=
  ⟨per_process_cpu_percent.1 1000 50 100 1,
    per_process_cpu_percent.2.1 { jiffies := 0, ts := 2000 } 1000 50 100 1 (by decide),
    per_process_cpu_percent.2.2.2.1 (some { jiffies := 0, ts := 0 }) 1000 50 100 1 50
      (by simp [sampleCpuPct]; norm_num),
    per_process_cpu_percent.2.2.2.2 none infoTwoPids 1000 100 1 0 1 []
      { pid := 1, uid := some 0, ppid := 0, command := "a", cpuPercent := none,
        memBytes := 10, memPercent := none }
      [(1, { jiffies := 0, ts := 1000 })] (by decide)⟩

/-- C8: after an enumeration completes, the sampler's per-process map
contains no entry whose PID is absent from that cycle's process
listing. -/
theorem sampler_state_no_stale_pids (e : Env) (clkTck procMax : Nat) (info : Int → PidInfo)
    (pids : List Int) (nowMs : Int) (cpuLimit : ℚ) (memLimitBytes : Int) (st : ProcMap)
    (pid : Int) :
    pid ∈ (listProcessSamples e clkTck procMax info pids nowMs cpuLimit memLimitBytes
        st).2.map Prod.fst → pid ∈ pids := by
  intro h
  simp only [listProcessSamples, List.mem_map] at h
  obtain ⟨entry, hmem, rfl⟩ := h
  have hc := List.of_mem_filter hmem
  simpa using hc

/-- C8, witness: a stale entry for exited PID 5 is gone, and the
remaining keys 1 and 2 are both in the listing. -/
theorem sampler_state_no_stale_pids_witness : (1 : Int) ∈ [(1 : Int), 2] :=
  sampler_state_no_stale_pids envAll 100 8192 infoTwoPids [1, 2] 1000 1 0
    [(5, { jiffies := 3, ts := 500 })] 1 (by decide)

/-- C3, counterexample: a v1 cycle whose container memory usage (150
bytes) exceeds its limit (100 bytes) produces a snapshot whose memory
usage percentage is 150, outside the claimed 0..100 range: the source
clamps only the CPU percentages. -/
theorem memory_percent_unclamped :
    (collectMetrics worldMemOver initialSamplerState).1.memPercent = 150 ∧
      ¬(collectMetrics worldMemOver initialSamplerState).1.memPercent ≤ 100 := by
  have e1 : readNumber (some "100") = 100 := by decide
  have e2 : readNumber (some "150") = 150 := by decide
  have h : (collectMetrics worldMemOver initialSamplerState).1.memPercent = 150 := by
    simp only [collectMetrics, worldMemOver, readMemory, memPercentOf]
    norm_num [e1, e2]
  refine ⟨h, by rw [h]; norm_num⟩

/-- C3, amended: the container cpuUsagePercent and every defined
per-process cpuPercent in a collection cycle lie in 0..100 (they are
clamped); the memory, storage and per-process memory percentages are
raw ratios, not clamped, as the counterexample shows. -/
theorem cpu_percent_clamped (w : World) (st : SamplerState) :
    (0 ≤ (collectMetrics w st).1.cpuUsagePercent ∧
        (collectMetrics w st).1.cpuUsagePercent ≤ 100) ∧
      ∀ s ∈ (listProcessSamples w.env w.clkTck w.procMax w.info w.pids w.nowMs
          (getCpuLimit w.version w.fs) (readMemory w.version w.fs).memLimit
          st.prevProcTimes).1,
        ∀ q, s.cpuPercent = some q → 0 ≤ q ∧ q ≤ 100 := by
  constructor
  · have hc : (collectMetrics w st).1.cpuUsagePercent =
        containerCpuPercent st.lastCpuUsageNs st.lastTsContainer w.usageNs w.nowMs
          (getCpuLimit w.version w.fs) := rfl
    rw [hc]
    exact containerCpuPercent_bounds _ _ _ _ _
  · intro s hs q hq
    have hs1 : s ∈ (sampleLoop (buildAllowedUidSet w.env) w.info w.nowMs w.clkTck
        (getCpuLimit w.version w.fs) (readMemory w.version w.fs).memLimit w.procMax w.pids
        st.prevProcTimes []).1 := by
      simpa [listProcessSamples] using hs
    exact sampleLoop_cpu_bounds (buildAllowedUidSet w.env) w.info w.nowMs w.clkTck
      (getCpuLimit w.version w.fs) (readMemory w.version w.fs).memLimit w.procMax w.pids
      st.prevProcTimes [] (by simp) s hs1 q hq

/-- C3, witness. -/
theorem cpu_percent_clamped_witness :
    (0 ≤ (collectMetrics worldBusy stBusy).1.cpuUsagePercent ∧
        (collectMetrics worldBusy stBusy).1.cpuUsagePercent ≤ 100) ∧
      (0 ≤ (50 : ℚ) ∧ (50 : ℚ) ≤ 100) :=
  ⟨(cpu_percent_clamped worldBusy stBusy).1,
    (cpu_percent_clamped worldBusy stBusy).2
      { pid := 1, uid := some 0, ppid := 0, command := "busy", cpuPercent := some 50,
        memBytes := 0, memPercent := none }
      (by
        have hl : (listProcessSamples worldBusy.env worldBusy.clkTck worldBusy.procMax
            worldBusy.info worldBusy.pids worldBusy.nowMs
            (getCpuLimit worldBusy.version worldBusy.fs)
            (readMemory worldBusy.version worldBusy.fs).memLimit
            stBusy.prevProcTimes).1 =
            [{ pid := 1, uid := some 0, ppid := 0, command := "busy", cpuPercent := some 50,
               memBytes := 0, memPercent := none }] := by
          have hcl : getCpuLimit worldBusy.version worldBusy.fs = 1 := by decide
          have hml : (readMemory worldBusy.version worldBusy.fs).memLimit = 0 := by decide
          have hpct : sampleCpuPct (some { jiffies := 0, ts := 0 }) 1000 50 100 1 =
              some 50 := by
            simp [sampleCpuPct]
            norm_num
          rw [hcl, hml]
          simp [worldBusy, stBusy, listProcessSamples, sampleLoop, processPid, uidAllowed,
            buildAllowedUidSet, envProcUids, envProcMode, uidSetFromMode, envAll, infoBusyPid,
            mapSet, hpct, jsOrStr, jsTrim, jsToLower]
        rw [hl]
        exact List.mem_singleton.mpr rfl)
      50 rfl⟩

/-- C2, counterexample: with PROC_MAX 1 and two surviving processes,
the snapshot keeps only the first-enumerated sample (PID 1, 10 bytes)
because the cap is applied during enumeration, while sorting the full
list and then truncating would keep the strictly greater sample (PID 2,
1000 bytes). -/
theorem process_cap_not_top_k :
    (listProcessSamples envAll 100 1 infoTwoPids [1, 2] 1000 1 0 []).1 =
        [{ pid := 1, uid := some 0, ppid := 0, command := "a", cpuPercent := none,
           memBytes := 10, memPercent := none }] ∧
      listProcessSamplesSortFirst envAll 100 1 infoTwoPids [1, 2] 1000 1 0 [] =
        [{ pid := 2, uid := some 0, ppid := 0, command := "b", cpuPercent := none,
           memBytes := 1000, memPercent := none }] ∧
      (listProcessSamples envAll 100 1 infoTwoPids [1, 2] 1000 1 0 []).1 ≠
        listProcessSamplesSortFirst envAll 100 1 infoTwoPids [1, 2] 1000 1 0 [] :=
  ⟨by decide, by decide, by decide⟩

/-- C2, amended: the returned process list is the sorted version of the
first PROC_MAX surviving samples in enumeration order (the cap is
applied before sorting): it is sorted by descending cpuPercent with
ties by descending memoryBytes, and is a permutation of that
front segment of the enumeration order, not of the globally greatest PROC_MAX
samples. -/
theorem process_list_cap_before_sort (e : Env) (clkTck procMax : Nat) (info : Int → PidInfo)
    (pids : List Int) (nowMs : Int) (cpuLimit : ℚ) (memLimitBytes : Int) (st : ProcMap)
    (hpm : 0 < procMax) :
    (listProcessSamples e clkTck procMax info pids nowMs cpuLimit memLimitBytes st).1 =
        List.insertionSort sampleLE
          ((sampleLoopAll (buildAllowedUidSet e) info nowMs clkTck cpuLimit memLimitBytes
            pids st).take procMax) ∧
      List.Sorted sampleLE
        (listProcessSamples e clkTck procMax info pids nowMs cpuLimit memLimitBytes st).1 ∧
      (listProcessSamples e clkTck procMax info pids nowMs cpuLimit memLimitBytes st).1.Perm
        ((sampleLoopAll (buildAllowedUidSet e) info nowMs clkTck cpuLimit memLimitBytes pids
          st).take procMax) := by
  have h0 : (sampleLoop (buildAllowedUidSet e) info nowMs clkTck cpuLimit memLimitBytes
      procMax pids st []).1 =
      (sampleLoopAll (buildAllowedUidSet e) info nowMs clkTck cpuLimit memLimitBytes pids
        st).take procMax := by
    simpa using sampleLoop_eq_takeAll (buildAllowedUidSet e) info nowMs clkTck cpuLimit
      memLimitBytes procMax pids st [] (by simpa using hpm)
  refine ⟨?_, ?_, ?_⟩
  · simp only [listProcessSamples]
    rw [h0]
  · simp only [listProcessSamples]
    exact List.sorted_insertionSort sampleLE _
  · simp only [listProcessSamples]
    rw [h0]
    exact List.perm_insertionSort sampleLE _

/-- C2, witness. -/
theorem process_list_cap_before_sort_witness :
    (listProcessSamples envAll 100 1 infoTwoPids [1, 2] 1000 1 0 []).1 =
        List.insertionSort sampleLE
          ((sampleLoopAll (buildAllowedUidSet envAll) infoTwoPids 1000 100 1 0 [1, 2]
            []).take 1) ∧
      List.Sorted sampleLE (listProcessSamples envAll 100 1 infoTwoPids [1, 2] 1000 1 0 []).1 ∧
      (listProcessSamples envAll 100 1 infoTwoPids [1, 2] 1000 1 0 []).1.Perm
        ((sampleLoopAll (buildAllowedUidSet envAll) infoTwoPids 1000 100 1 0 [1, 2]
          []).take 1) :=
  process_list_cap_before_sort envAll 100 1 infoTwoPids [1, 2] 1000 1 0 [] (by decide)

end ContainerOps
